import Mathlib

/-!
Verification of the openclaw-sendblue ingestion core against its
specification.  The definitions below are a shallow embedding of the
TypeScript sources (`src/db.ts`, `src/channel.ts`, `src/webhook.ts`):
SQLite tables become lists of records, `Date.now()` timestamps become
explicit `Int` parameters, and the in-memory maps become association
lists.  Each theorem states one claim about this embedding.
-/

namespace Sendblue

/-! ### db.ts — processed_messages (Deduplicator)

The table `processed_messages(message_id TEXT PRIMARY KEY, processed_at
INTEGER)` is modelled as a list of records with pairwise-distinct ids
maintained by the operations themselves (INSERT OR IGNORE never inserts
a duplicate primary key). -/

structure ProcessedMessageRecord where
  message_id : String
  processed_at : Int
deriving DecidableEq, Repr

abbrev ProcessedStore := List ProcessedMessageRecord

def processedIds (s : ProcessedStore) : List String :=
  s.map (·.message_id)

/-- `tryMarkMessageProcessed` (db.ts:89-96): `INSERT OR IGNORE` of the
primary key, returning `changes > 0`, i.e. `true` exactly when the row
was newly inserted. -/
def tryMarkMessageProcessed (messageId : String) (now : Int)
    (s : ProcessedStore) : Bool × ProcessedStore :=
  if messageId ∈ processedIds s then (false, s)
  else (true, ⟨messageId, now⟩ :: s)

/-- `n` successive calls of `tryMarkMessageProcessed` for the same id,
threading the store; returns the list of results and the final store. -/
def runTryMark (messageId : String) (now : Int) :
    Nat → ProcessedStore → List Bool × ProcessedStore
  | 0, s => ([], s)
  | n + 1, s =>
    let r := tryMarkMessageProcessed messageId now s
    let rest := runTryMark messageId now n r.2
    (r.1 :: rest.1, rest.2)

/-! ### channel.ts — isAllowed (AccessGuard) -/

/-- The slice of `SendblueChannelConfig` that `isAllowed` reads.
`none` models an absent (`undefined`) field. -/
structure SendblueChannelConfig where
  allowFrom : Option (List String)
  dmPolicy : Option String
deriving DecidableEq, Repr

/-- `num.replace(/\D/g, '')` — strip every non-digit character. -/
def normalizeNumber (num : String) : String :=
  String.mk (num.toList.filter Char.isDigit)

/-- `isAllowed` (channel.ts:152-169).  An absent or empty `allowFrom`
returns `dmPolicy !== 'disabled'`; otherwise `disabled` rejects,
`open` accepts, and any other policy value compares normalized
numbers against the allowlist. -/
def isAllowed (cfg : SendblueChannelConfig) (phoneNumber : String) : Bool :=
  match cfg.allowFrom with
  | none => decide (cfg.dmPolicy ≠ some "disabled")
  | some [] => decide (cfg.dmPolicy ≠ some "disabled")
  | some l =>
    if cfg.dmPolicy = some "disabled" then false
    else if cfg.dmPolicy = some "open" then true
    else l.any (fun w => normalizeNumber w == normalizeNumber phoneNumber)

/-! ### webhook.ts — InMemoryRateLimiter

The `Map<string, RateLimitEntry>` becomes an association list; the
mutating `isAllowed` becomes a function from limiter state to
(result, new state), with `Date.now()` passed in as `now`. -/

structure RateLimitEntry where
  count : Nat
  windowStart : Int
deriving DecidableEq, Repr

abbrev RateLimitMap := List (String × RateLimitEntry)

def lookupEntry (k : String) : RateLimitMap → Option RateLimitEntry
  | [] => none
  | (k', e) :: rest => if k' = k then some e else lookupEntry k rest

def setEntry (k : String) (e : RateLimitEntry) : RateLimitMap → RateLimitMap
  | [] => [(k, e)]
  | (k', e') :: rest =>
    if k' = k then (k, e) :: rest else (k', e') :: setEntry k e rest

structure RateLimiter where
  requests : RateLimitMap
  windowMs : Int
  maxRequests : Nat
deriving DecidableEq, Repr

/-- `InMemoryRateLimiter.isAllowed` (webhook.ts:31-47): a missing or
expired entry starts a new window with count 1 and allows; an active
window at or above `maxRequests` rejects; otherwise the count is
incremented and the call allowed. -/
def RateLimiter.isAllowed (rl : RateLimiter) (now : Int)
    (identifier : String) : Bool × RateLimiter :=
  match lookupEntry identifier rl.requests with
  | none =>
    (true, { rl with requests := setEntry identifier ⟨1, now⟩ rl.requests })
  | some entry =>
    if now - entry.windowStart > rl.windowMs then
      (true, { rl with requests := setEntry identifier ⟨1, now⟩ rl.requests })
    else if entry.count ≥ rl.maxRequests then
      (false, rl)
    else
      (true,
        { rl with requests := setEntry identifier ⟨entry.count + 1, entry.windowStart⟩ rl.requests })

/-- Successive `isAllowed` calls from one client at the given times. -/
def runLimiter (key : String) : List Int → RateLimiter →
    List Bool × RateLimiter
  | [], rl => ([], rl)
  | t :: ts, rl =>
    let r := rl.isAllowed t key
    let rest := runLimiter key ts r.2
    (r.1 :: rest.1, rest.2)

/-! ### webhook.ts — routing and secret verification -/

/-- The request headers read by `verifySecret`.  `none` models an
absent header (Node lower-cases header names; a repeated header would
be an array and fail the `typeof === 'string'` check, so only
single-valued headers are modelled). -/
structure WebhookHeaders where
  xSendblueSecret : Option String
  xWebhookSecret : Option String
  xApiKey : Option String
  authorization : Option String
deriving DecidableEq, Repr

/-- JavaScript `a || b` over header values: an absent (`undefined`) or
empty-string value falls through to the right operand. -/
def jsOrHeader (a b : Option String) : Option String :=
  match a with
  | none => b
  | some s => if s.isEmpty then b else some s

/-- `providedSecret.startsWith('Bearer ') ? providedSecret.slice(7) :
providedSecret` (webhook.ts:119-121), expressed on the character
list: starts-with is equality of the first seven characters, slice(7)
drops them. -/
def stripBearerPrefix (s : String) : String :=
  if s.toList.take 7 = "Bearer ".toList then String.mk (s.toList.drop 7)
  else s

/-- `verifySecret` (webhook.ts:107-126): the `||` chain picks the
first truthy header among the four conventions; that single value,
after stripping an optional `Bearer ` prefix, is compared with the
expected secret. -/
def verifySecret (h : WebhookHeaders) (expectedSecret : String) : Bool :=
  match jsOrHeader h.xSendblueSecret
      (jsOrHeader h.xWebhookSecret
        (jsOrHeader h.xApiKey h.authorization)) with
  | some providedSecret => stripBearerPrefix providedSecret == expectedSecret
  | none => false

/-- The secret-verification gate of the request handler
(webhook.ts:175-180): `if (secret && !verifySecret(req, secret))` — a
falsy configured secret (absent or the empty string) disables
verification entirely; otherwise a request failing `verifySecret` is
answered with 401 and any other request proceeds (`none`). -/
def webhookAuthStatus (secret : Option String) (h : WebhookHeaders) :
    Option Nat :=
  match secret with
  | some s =>
    if s.isEmpty then none
    else if verifySecret h s then none else some 401
  | none => none

/-- A header value that JavaScript counts as truthy: present and
non-empty (`none` otherwise). -/
def truthyHeader (v : Option String) : Option String :=
  match v with
  | some s => if s.isEmpty then none else some s
  | none => none

/-- The spec-side reading of the `||` chain: the first present,
non-empty header value in the priority order `x-sendblue-secret`,
`x-webhook-secret`, `x-api-key`, `Authorization`. -/
def firstNonEmptyHeader (h : WebhookHeaders) : Option String :=
  [h.xSendblueSecret, h.xWebhookSecret, h.xApiKey,
    h.authorization].findSome? truthyHeader

/-- The spec's reading of secret acceptance, for comparison with
`verifySecret`: at least one of the four header conventions carries
the configured secret, with an optional `Bearer ` prefix on the
Authorization header. -/
def specSecretAccepted (h : WebhookHeaders) (secret : String) : Bool :=
  h.xSendblueSecret == some secret ||
  h.xWebhookSecret == some secret ||
  h.xApiKey == some secret ||
  h.authorization == some secret ||
  h.authorization == some ("Bearer " ++ secret)

/-! ### webhook.ts / channel.ts — messages -/

/-- The fields of a `SendblueMessage` payload the core inspects.  The
webhook payload arrives as untyped JSON, so the string fields are
`Option` (`none` = absent or not a string); `is_outbound` is `false`
when absent (falsy).  The remaining fields of the interface
(`to_number`, `number`, `status`, `date_sent`, `date_updated`,
`created_at`) are never branched on by the core and are omitted. -/
structure SendblueMessage where
  message_handle : Option String
  from_number : Option String
  content : Option String
  media_url : Option String
  is_outbound : Bool
deriving DecidableEq, Repr

/-- JavaScript truthiness of a possibly-absent string: `undefined`
and the empty string are falsy. -/
def jsTruthy (s : Option String) : Bool :=
  match s with
  | none => false
  | some v => !v.isEmpty

/-- `isValidSendbluePayload` (webhook.ts:90-101): `message_handle` and
`from_number` must be present strings of positive length. -/
def isValidSendbluePayload (p : SendblueMessage) : Bool :=
  match p.message_handle, p.from_number with
  | some h, some f => decide (0 < h.length) && decide (0 < f.length)
  | _, _ => false

/-- The externally visible actions of the webhook body handler, in
order of occurrence. -/
inductive WebhookEvent where
  | respond (status : Nat) (body : String)
  | dispatch (msg : SendblueMessage)
  | logError (msg : String)
deriving DecidableEq, Repr

def isRespondEvent : WebhookEvent → Bool
  | .respond _ _ => true
  | _ => false

/-- The `req.on('end')` handler (webhook.ts:206-243) for a request
that was not cut off earlier, as the ordered list of its actions.
`parsed` is the result of `JSON.parse` (`none` = parse failure);
`onMessageFails` says whether the downstream `onMessage` call throws.
Info-level logging is omitted. -/
def handleParsedBody (parsed : Option SendblueMessage)
    (onMessageFails : Bool) : List WebhookEvent :=
  match parsed with
  | none => [.respond 400 "Invalid JSON"]
  | some payload =>
    if ¬ isValidSendbluePayload payload = true then
      [.respond 400 "Invalid payload: missing required fields"]
    else
      .respond 200 "received" ::
        (if payload.is_outbound then []
         else if onMessageFails then
           [.dispatch payload, .logError "Error processing message"]
         else [.dispatch payload])

/-! ### channel.ts — poll (Poller cursor) -/

/-- The module-level polling state of channel.ts (lines 17-20):
`lastPollTime` is the cursor handed to `getInboundMessages`,
`isPolling` the re-entrancy guard.  The Sendblue client is assumed
initialized. -/
structure PollState where
  lastPollTime : Int
  isPolling : Bool
deriving DecidableEq, Repr

/-- One `poll` cycle (channel.ts:174-191).  `query` is
`sendblueClient.getInboundMessages` (`.error` = the call throws);
`tNow` is the value of `new Date()` evaluated right after the query
resolves.  Returns the new state and, when a query was issued, the
lower bound it received together with its outcome. -/
def poll (query : Int → Except Unit (List SendblueMessage)) (tNow : Int)
    (s : PollState) :
    PollState × Option (Int × Except Unit (List SendblueMessage)) :=
  if s.isPolling then (s, none)
  else
    match query s.lastPollTime with
    | .ok msgs =>
      (⟨tNow, false⟩, some (s.lastPollTime, .ok msgs))
    | .error e =>
      ({ s with isPolling := false }, some (s.lastPollTime, .error e))

/-! ### channel.ts — processMessage (IngestionPipeline) -/

/-- The externally visible actions of one `processMessage` run, in
order (error/info logging kept only where a branch depends on it). -/
inductive ProcessEffect where
  | logInvalid
  | logBlocked
  | markRead (number : String)
  | recordConversation (chatId fromNumber content : String)
  | dispatch (sessionKey content : String)
  | logNoDispatcher
deriving DecidableEq, Repr

/-- `content.trim()` on the character list: strip leading and
trailing whitespace. -/
def jsTrim (s : String) : String :=
  String.mk
    (((s.toList.dropWhile Char.isWhitespace).reverse.dropWhile
      Char.isWhitespace).reverse)

/-- The part of `processMessage` after the dedup claim succeeded
(channel.ts:208-300): access policy, content/media check, mark-read,
conversation recording, dispatch.  None of it touches the dedup
store. -/
def processMessageBody (cfg : SendblueChannelConfig)
    (dispatcherAvailable : Bool) (fromNumber : String)
    (rawContent mediaUrl : Option String) : List ProcessEffect :=
  if ¬ isAllowed cfg fromNumber = true then [.logBlocked]
  else
    let content := (rawContent.map jsTrim).getD ""
    if content.isEmpty && !jsTruthy mediaUrl then []
    else
      let messageContent :=
        match mediaUrl with
        | some u =>
          if u.isEmpty then content
          else if content.isEmpty then "[Media: " ++ u ++ "]"
          else content ++ "\n\n" ++ "[Media: " ++ u ++ "]"
        | none => content
      [.markRead fromNumber,
       .recordConversation fromNumber fromNumber messageContent] ++
        (if dispatcherAvailable then [.dispatch fromNumber messageContent]
         else [.logNoDispatcher])

/-- `processMessage` (channel.ts:196-301): validate the required
fields, atomically claim the handle, then run the policy and content
checks and the dispatch.  Returns the dedup store after the call and
the list of actions taken. -/
def processMessage (cfg : SendblueChannelConfig)
    (dispatcherAvailable : Bool) (msg : SendblueMessage) (now : Int)
    (store : ProcessedStore) : ProcessedStore × List ProcessEffect :=
  if !jsTruthy msg.message_handle || !jsTruthy msg.from_number then
    (store, [.logInvalid])
  else
    let r := tryMarkMessageProcessed (msg.message_handle.getD "") now store
    if r.1 = false then (r.2, [])
    else
      (r.2, processMessageBody cfg dispatcherAvailable
        (msg.from_number.getD "") msg.content msg.media_url)

/-! ### db.ts — outbound_message_status (DeliveryStatusReconciler) -/

/-- A row of `outbound_message_status` (db.ts:44-52), field for field
as in `OutboundMessageStatus` of types.ts. -/
structure OutboundMessageStatus where
  message_handle : String
  chat_id : String
  status : String
  last_checked : Int
  is_terminal : Bool
  created_at : Int
  updated_at : Int
deriving DecidableEq, Repr

abbrev OutboundStatusTable := List OutboundMessageStatus

/-- The named parameters of `upsertOutboundMessageStatus`
(db.ts:120-126); `lastChecked = none` models the omitted optional
argument (defaulting to `now`). -/
structure UpsertParams where
  messageHandle : String
  chatId : String
  status : String
  isTerminal : Bool
  lastChecked : Option Int
deriving DecidableEq, Repr

/-- `upsertOutboundMessageStatus` (db.ts:120-153): `INSERT ... ON
CONFLICT(message_handle) DO UPDATE` — the row with the same primary
key, if any, gets the new chat id, status, last-checked, terminal
flag and updated-at (keeping its created-at); otherwise a new row is
inserted. -/
def upsertOutboundMessageStatus (p : UpsertParams) (now : Int) :
    OutboundStatusTable → OutboundStatusTable
  | [] =>
    [⟨p.messageHandle, p.chatId, p.status, p.lastChecked.getD now,
      p.isTerminal, now, now⟩]
  | r :: rest =>
    if r.message_handle = p.messageHandle then
      ⟨r.message_handle, p.chatId, p.status, p.lastChecked.getD now,
        p.isTerminal, r.created_at, now⟩ :: rest
    else r :: upsertOutboundMessageStatus p now rest

/-- `listPendingOutboundStatuses` (db.ts:155-184): `WHERE is_terminal
= 0 ORDER BY last_checked ASC LIMIT ?`. -/
def listPendingOutboundStatuses (limit : Nat) (t : OutboundStatusTable) :
    List OutboundMessageStatus :=
  ((t.filter (fun r => !r.is_terminal)).insertionSort
    (fun a b => a.last_checked ≤ b.last_checked)).take limit

/-- Modelled from the spec: the DeliveryStatusReconciler's terminal
classification (spec §4.7) — the reconciler loop itself is not under
src/, only its db primitives are.  A returned status is terminal when
it equals one of the declared terminal values case-insensitively. -/
def isTerminalStatus (s : String) : Bool :=
  ["delivered", "read", "failed", "undelivered", "canceled",
    "cancelled"].contains (String.mk (s.toList.map Char.toLower))

/-- Modelled from the spec: one record's re-check in a reconciliation
cycle (spec §4.7).  `f` is the provider status query (`none` = query
failure).  On success the new status is classified and upserted; on
failure status and terminal flag are kept and only the last-checked
timestamp is refreshed. -/
def reconcileStep (f : String → Option String) (now : Int)
    (t : OutboundStatusTable) (r : OutboundMessageStatus) :
    OutboundStatusTable :=
  match f r.message_handle with
  | some s =>
    upsertOutboundMessageStatus
      ⟨r.message_handle, r.chat_id, s, isTerminalStatus s, some now⟩ now t
  | none =>
    upsertOutboundMessageStatus
      ⟨r.message_handle, r.chat_id, r.status, r.is_terminal, some now⟩ now t

/-- Modelled from the spec: a full reconciliation cycle (spec §4.7):
select a bounded batch of non-terminal records least-recently-checked
first, then re-check each. -/
def reconcileCycle (f : String → Option String) (now : Int) (limit : Nat)
    (t : OutboundStatusTable) : OutboundStatusTable :=
  (listPendingOutboundStatuses limit t).foldl (reconcileStep f now) t

/-- Primary-key lookup in the outbound status table. -/
def findRecord (handle : String) (t : OutboundStatusTable) :
    Option OutboundMessageStatus :=
  t.find? (fun r => r.message_handle == handle)

/-- The routing phase of the HTTP handler (webhook.ts:150-161): `GET
/health` answers 200; any other request that is not a POST to a URL
starting with the configured path answers 404; `none` means the
request proceeds to the later phases.  `url = none` models `req.url`
being `undefined`. -/
def webhookRouteStatus (method : String) (url : Option String)
    (path : String) : Option Nat :=
  if method = "GET" ∧ url = some "/health" then some 200
  else if method ≠ "POST" ∨
      ¬ (match url with
          | some u => u.startsWith path
          | none => false) = true then some 404
  else none

end Sendblue

namespace Sendblue

/-! ### Theorems for the Deduplicator -/

theorem tryMark_mem (messageId : String) (now : Int) (s : ProcessedStore)
    (h : messageId ∈ processedIds s) :
    tryMarkMessageProcessed messageId now s = (false, s) := by
  simp [tryMarkMessageProcessed, h]

theorem runTryMark_mem (messageId : String) (now : Int) (n : Nat)
    (s : ProcessedStore) (h : messageId ∈ processedIds s) :
    runTryMark messageId now n s = (List.replicate n false, s) := by
  induction n with
  | zero => simp [runTryMark]
  | succ n ih =>
    simp [runTryMark, tryMark_mem messageId now s h, ih, List.replicate_succ]

/-- C1: the first claim of an unseen id returns `true` and inserts the
record; any claim of an already-present id returns `false` and leaves
the store unchanged; among `n ≥ 1` claims of the same id exactly one
returns `true`. -/
theorem dedup_at_most_once (messageId : String) (now : Int)
    (s : ProcessedStore) (n : Nat)
    (hfresh : messageId ∉ processedIds s) (hn : 1 ≤ n) :
    (tryMarkMessageProcessed messageId now s).1 = true ∧
    messageId ∈ processedIds (tryMarkMessageProcessed messageId now s).2 ∧
    (∀ s' : ProcessedStore, messageId ∈ processedIds s' →
      tryMarkMessageProcessed messageId now s' = (false, s')) ∧
    (runTryMark messageId now n s).1.count true = 1 := by
  have hstep : tryMarkMessageProcessed messageId now s =
      (true, ⟨messageId, now⟩ :: s) := by
    simp [tryMarkMessageProcessed, hfresh]
  have hmem : messageId ∈ processedIds
      (tryMarkMessageProcessed messageId now s).2 := by
    rw [hstep]; simp [processedIds]
  refine ⟨by rw [hstep], hmem,
    fun s' h => tryMark_mem messageId now s' h, ?_⟩
  obtain ⟨m, rfl⟩ : ∃ m, n = m + 1 := ⟨n - 1, by omega⟩
  simp only [runTryMark]
  rw [runTryMark_mem messageId now m _ hmem, hstep]
  simp [List.count_replicate]

/-- Witness for `dedup_at_most_once` at a concrete id and store. -/
theorem dedup_at_most_once_witness :
    "m1" ∉ processedIds [⟨"m0", 5⟩] ∧ 1 ≤ 3 ∧
    ((tryMarkMessageProcessed "m1" 10 [⟨"m0", 5⟩]).1 = true ∧
     "m1" ∈ processedIds (tryMarkMessageProcessed "m1" 10 [⟨"m0", 5⟩]).2 ∧
     (∀ s' : ProcessedStore, "m1" ∈ processedIds s' →
       tryMarkMessageProcessed "m1" 10 s' = (false, s')) ∧
     (runTryMark "m1" 10 3 [⟨"m0", 5⟩]).1.count true = 1) :=
  ⟨by decide, by decide,
    dedup_at_most_once "m1" 10 [⟨"m0", 5⟩] 3 (by decide) (by decide)⟩

/-! ### Theorems for the AccessGuard -/

/-- C3: with a non-empty allowlist, `disabled` rejects everyone, `open`
accepts everyone, and `allowlist` (explicit or the absent default)
accepts exactly the senders whose digit-normalization matches an
allow-entry; in particular the two concrete examples from the spec. -/
theorem isAllowed_modes (cfg : SendblueChannelConfig) (l : List String)
    (hl : cfg.allowFrom = some l) (hne : l ≠ []) (x : String) :
    (cfg.dmPolicy = some "disabled" → isAllowed cfg x = false) ∧
    (cfg.dmPolicy = some "open" → isAllowed cfg x = true) ∧
    ((cfg.dmPolicy = some "allowlist" ∨ cfg.dmPolicy = none) →
      (isAllowed cfg x = true ↔
        ∃ w ∈ l, normalizeNumber w = normalizeNumber x)) ∧
    isAllowed ⟨some ["+15559876543"], some "allowlist"⟩ "+1 (555) 987-6543"
      = true ∧
    isAllowed ⟨some ["+15559876543"], some "allowlist"⟩ "+15550000000"
      = false := by
  obtain ⟨a, l', rfl⟩ : ∃ a l', l = a :: l' := by
    cases l with
    | nil => exact absurd rfl hne
    | cons a l' => exact ⟨a, l', rfl⟩
  refine ⟨fun hd => ?_, fun hd => ?_, fun hd => ?_, by decide, by decide⟩
  · simp [isAllowed, hl, hd]
  · simp [isAllowed, hl, hd]
  · have h1 : cfg.dmPolicy ≠ some "disabled" := by
      rcases hd with h | h <;> simp [h]
    have h2 : cfg.dmPolicy ≠ some "open" := by
      rcases hd with h | h <;> simp [h]
    simp [isAllowed, hl, h1, h2, List.any_eq_true]

/-- Witness for `isAllowed_modes` at the spec's concrete configuration. -/
theorem isAllowed_modes_witness :
    (⟨some ["+15559876543"], some "allowlist"⟩ : SendblueChannelConfig).allowFrom
        = some ["+15559876543"] ∧
    (["+15559876543"] : List String) ≠ [] ∧
    (((⟨some ["+15559876543"], some "allowlist"⟩ : SendblueChannelConfig).dmPolicy
          = some "allowlist" ∨
        (⟨some ["+15559876543"], some "allowlist"⟩ : SendblueChannelConfig).dmPolicy
          = none) →
      (isAllowed ⟨some ["+15559876543"], some "allowlist"⟩
          "+1 (555) 987-6543" = true ↔
        ∃ w ∈ ["+15559876543"],
          normalizeNumber w = normalizeNumber "+1 (555) 987-6543")) :=
  ⟨rfl, by decide,
    (isAllowed_modes ⟨some ["+15559876543"], some "allowlist"⟩
      ["+15559876543"] rfl (by decide) "+1 (555) 987-6543").2.2.1⟩

/-- C4 counterexample: with an empty allowlist and explicit `allowlist`
mode (not `open`), `isAllowed` returns `true`, not `false`: an empty
allowlist behaves like `open`, not like `disabled`. -/
theorem empty_allowlist_open_counterexample :
    isAllowed ⟨some [], some "allowlist"⟩ "+15550000000" = true := by
  decide

/-- C4 amended: with an absent or empty allowlist, `isAllowed` accepts
every sender unless the mode is explicitly `disabled` — an empty
allowlist under `allowlist` mode is equivalent to `open`. -/
theorem empty_allowlist_defaults_open (cfg : SendblueChannelConfig) (x : String)
    (h : cfg.allowFrom = none ∨ cfg.allowFrom = some []) :
    (isAllowed cfg x = true ↔ cfg.dmPolicy ≠ some "disabled") := by
  rcases h with h | h <;> simp [isAllowed, h]

/-- Witness for `empty_allowlist_defaults_open` at a concrete config. -/
theorem empty_allowlist_defaults_open_witness :
    ((⟨some [], some "allowlist"⟩ : SendblueChannelConfig).allowFrom = none ∨
      (⟨some [], some "allowlist"⟩ : SendblueChannelConfig).allowFrom = some []) ∧
    (isAllowed ⟨some [], some "allowlist"⟩ "+15550000000" = true ↔
      (⟨some [], some "allowlist"⟩ : SendblueChannelConfig).dmPolicy
        ≠ some "disabled") :=
  ⟨Or.inr rfl,
    empty_allowlist_defaults_open ⟨some [], some "allowlist"⟩
      "+15550000000" (Or.inr rfl)⟩

/-! ### Theorems for the RateLimiter -/

theorem lookup_setEntry_self (k : String) (e : RateLimitEntry)
    (m : RateLimitMap) : lookupEntry k (setEntry k e m) = some e := by
  induction m with
  | nil => simp [setEntry, lookupEntry]
  | cons p rest ih =>
    by_cases h : p.1 = k <;> simp [setEntry, lookupEntry, h, ih]

theorem runLimiter_append (key : String) (ts1 ts2 : List Int)
    (rl : RateLimiter) :
    runLimiter key (ts1 ++ ts2) rl =
      ((runLimiter key ts1 rl).1 ++
        (runLimiter key ts2 (runLimiter key ts1 rl).2).1,
       (runLimiter key ts2 (runLimiter key ts1 rl).2).2) := by
  induction ts1 generalizing rl with
  | nil => simp [runLimiter]
  | cons t ts ih => simp [runLimiter, ih]

/-- Within an active window starting at `t0`, a client whose entry has
count `c` gets `true` for exactly the calls made while the count is
below the maximum; the window start never moves and the count caps at
the maximum. -/
theorem runLimiter_window (key : String) (ts : List Int)
    (rl : RateLimiter) (c : Nat) (t0 : Int)
    (hc1 : 1 ≤ c) (hcM : c ≤ rl.maxRequests)
    (hlook : lookupEntry key rl.requests = some ⟨c, t0⟩)
    (hts : ∀ t ∈ ts, t - t0 ≤ rl.windowMs) :
    (runLimiter key ts rl).1 =
      (List.range ts.length).map (fun j => decide (c + j < rl.maxRequests)) ∧
    lookupEntry key (runLimiter key ts rl).2.requests =
      some ⟨min (c + ts.length) rl.maxRequests, t0⟩ ∧
    (runLimiter key ts rl).2.windowMs = rl.windowMs ∧
    (runLimiter key ts rl).2.maxRequests = rl.maxRequests := by
  induction ts generalizing rl c with
  | nil =>
    refine ⟨by simp [runLimiter], ?_, rfl, rfl⟩
    simp [runLimiter, hlook]
    omega
  | cons t ts ih =>
    have hwin : ¬ (t - t0 > rl.windowMs) := by
      have := hts t (by simp)
      omega
    by_cases hfull : c ≥ rl.maxRequests
    · -- window active, count already at the maximum: reject, keep state
      have hstep : rl.isAllowed t key = (false, rl) := by
        simp [RateLimiter.isAllowed, hlook, hwin, hfull]
      have hcfull : c = rl.maxRequests := le_antisymm hcM hfull
      obtain ⟨h1, h2, h3, h4⟩ := ih rl c hc1 hcM hlook
        (fun u hu => hts u (by simp [hu]))
      refine ⟨?_, ?_, ?_, ?_⟩
      · simp only [runLimiter, hstep, List.length_cons,
          List.range_succ_eq_map, List.map_cons, List.map_map]
        refine congrArg₂ _ (by simp [hcfull]) ?_
        rw [h1]
        refine List.map_congr_left fun j _ => ?_
        simp only [Function.comp]
        rw [decide_eq_decide]
        omega
      · simp only [runLimiter, hstep, List.length_cons]
        rw [h2]
        refine congrArg _ ?_
        refine congrArg₂ _ ?_ rfl
        omega
      · simpa [runLimiter, hstep] using h3
      · simpa [runLimiter, hstep] using h4
    · -- window active, below the maximum: increment and allow
      push_neg at hfull
      have hstep : rl.isAllowed t key = (true,
          { rl with requests := setEntry key ⟨c + 1, t0⟩ rl.requests }) := by
        simp [RateLimiter.isAllowed, hlook, hwin]
        omega
      obtain ⟨h1, h2, h3, h4⟩ := ih
        { rl with requests := setEntry key ⟨c + 1, t0⟩ rl.requests }
        (c + 1) (by omega) (by simpa using hfull)
        (by simpa using lookup_setEntry_self key ⟨c + 1, t0⟩ rl.requests)
        (fun u hu => hts u (by simp [hu]))
      refine ⟨?_, ?_, ?_, ?_⟩
      · simp only [runLimiter, hstep, List.length_cons,
          List.range_succ_eq_map, List.map_cons, List.map_map]
        refine congrArg₂ _ (by simp; omega) ?_
        rw [h1]
        refine List.map_congr_left fun j _ => ?_
        simp only [Function.comp]
        rw [decide_eq_decide]
        omega
      · simp only [runLimiter, hstep, List.length_cons]
        rw [h2]
        dsimp only
        refine congrArg _ ?_
        refine congrArg₂ _ ?_ rfl
        omega
      · simpa [runLimiter, hstep] using h3
      · simpa [runLimiter, hstep] using h4

/-- C5: starting with no entry for the client, calls at `t0` and then
at times `ts` that all fall within the window of length `W` return
`true` exactly while fewer than `M` calls have been made, and the
first call strictly more than `W` after `t0` returns `true` again. -/
theorem rate_limiter_fixed_window (W : Int) (M : Nat) (hM : 1 ≤ M)
    (key : String) (t0 : Int) (ts : List Int) (t' : Int)
    (hts : ∀ t ∈ ts, t - t0 ≤ W) (ht' : t' - t0 > W) :
    (runLimiter key (t0 :: (ts ++ [t'])) ⟨[], W, M⟩).1 =
      ((List.range (ts.length + 1)).map (fun i => decide (i < M))) ++
        [true] := by
  have hstep0 : (⟨[], W, M⟩ : RateLimiter).isAllowed t0 key =
      (true, ⟨[(key, ⟨1, t0⟩)], W, M⟩) := by
    simp [RateLimiter.isAllowed, lookupEntry, setEntry]
  obtain ⟨h1, h2, h3, h4⟩ := runLimiter_window key ts
    ⟨[(key, ⟨1, t0⟩)], W, M⟩ 1 t0 le_rfl hM
    (by simp [lookupEntry]) hts
  dsimp only at h1 h2 h3 h4
  have hstep' : ((runLimiter key ts ⟨[(key, ⟨1, t0⟩)], W, M⟩).2.isAllowed
      t' key).1 = true := by
    unfold RateLimiter.isAllowed
    rw [h2]
    dsimp only
    rw [h3, if_pos (by omega)]
  simp only [runLimiter, hstep0, runLimiter_append]
  rw [h1, hstep',
    List.range_succ_eq_map, List.map_cons, List.map_map, List.cons_append]
  refine congrArg₂ _ (by simp; omega) ?_
  refine congrArg₂ _ ?_ rfl
  exact List.map_congr_left fun j _ => by
    simp only [Function.comp]
    rw [decide_eq_decide]
    omega

/-- Witness for `rate_limiter_fixed_window`: window 1000 ms, max 3,
four calls inside the window and one after it. -/
theorem rate_limiter_fixed_window_witness :
    1 ≤ 3 ∧ (∀ t ∈ [100, 200, 300], t - (0 : Int) ≤ 1000) ∧
    ((1001 : Int) - 0 > 1000) ∧
    (runLimiter "ip" (0 :: ([100, 200, 300] ++ [1001])) ⟨[], 1000, 3⟩).1 =
      ((List.range (3 + 1)).map (fun i => decide (i < 3))) ++ [true] :=
  ⟨by decide, by decide, by decide,
    rate_limiter_fixed_window 1000 3 (by decide) "ip" 0 [100, 200, 300]
      1001 (by decide) (by decide)⟩

/-! ### Theorems for the WebhookReceiver routing -/

/-- C6 counterexample: a `PUT` to the webhook path is answered with
404, not 405 as the claim states. -/
theorem non_post_status_counterexample :
    webhookRouteStatus "PUT" (some "/webhook/sendblue") "/webhook/sendblue"
        = some 404 ∧
    webhookRouteStatus "PUT" (some "/webhook/sendblue") "/webhook/sendblue"
        ≠ some 405 := by
  constructor <;> decide

/-- C6 amended: every request whose method is not POST (excluding
`GET /health`) is answered with status 404. -/
theorem non_post_rejected_404 (method : String) (url : Option String)
    (path : String) (hhealth : ¬ (method = "GET" ∧ url = some "/health"))
    (hmeth : method ≠ "POST") :
    webhookRouteStatus method url path = some 404 := by
  simp only [webhookRouteStatus, if_neg hhealth]
  rw [if_pos (Or.inl hmeth)]

/-- Witness for `non_post_rejected_404`. -/
theorem non_post_rejected_404_witness :
    ¬ ("PUT" = "GET" ∧ some "/webhook/sendblue" = some "/health") ∧
    "PUT" ≠ "POST" ∧
    webhookRouteStatus "PUT" (some "/webhook/sendblue") "/webhook/sendblue"
        = some 404 :=
  ⟨by decide, by decide,
    non_post_rejected_404 "PUT" (some "/webhook/sendblue")
      "/webhook/sendblue" (by decide) (by decide)⟩

/-! ### Theorems for the shared-secret verification -/

/-- C7 counterexample: with a wrong `x-sendblue-secret` and a correct
`Authorization: Bearer s3cret`, one of the four header conventions
carries the configured secret, yet verification fails (and the
request is answered with 401): the claimed iff does not hold. -/
theorem secret_any_header_counterexample :
    specSecretAccepted ⟨some "wrong", none, none, some "Bearer s3cret"⟩
        "s3cret" = true ∧
    verifySecret ⟨some "wrong", none, none, some "Bearer s3cret"⟩
        "s3cret" = false ∧
    webhookAuthStatus (some "s3cret")
        ⟨some "wrong", none, none, some "Bearer s3cret"⟩ = some 401 := by
  refine ⟨by decide, by decide, by decide⟩

theorem chain_first_truthy (g : String → Bool)
    (l : List (Option String)) (t : Option String) :
    (match List.foldr jsOrHeader t l with
      | some p => g p
      | none => false)
    = (match l.findSome? truthyHeader with
        | some v => g v
        | none =>
          match t with
          | some p => g p
          | none => false) := by
  induction l with
  | nil => rfl
  | cons v l ih =>
    cases v with
    | none =>
      simpa [List.foldr, jsOrHeader, List.findSome?, truthyHeader] using ih
    | some s =>
      by_cases hs : s.isEmpty
      · simpa [List.foldr, jsOrHeader, List.findSome?, truthyHeader, hs]
          using ih
      · simp [List.foldr, jsOrHeader, List.findSome?, truthyHeader, hs]

theorem findSome_snoc_truthy (g : String → Bool) (hg : g "" = false)
    (l : List (Option String)) (d : Option String) :
    (match l.findSome? truthyHeader with
      | some v => g v
      | none =>
        match d with
        | some p => g p
        | none => false)
    = (match (l ++ [d]).findSome? truthyHeader with
        | some v => g v
        | none => false) := by
  induction l with
  | nil =>
    cases d with
    | none => rfl
    | some s =>
      by_cases hs : s.isEmpty
      · have hs0 : s = "" := (String.isEmpty_iff s).mp hs
        subst hs0
        simp [List.findSome?, truthyHeader, hs, hg]
      · simp [List.findSome?, truthyHeader, hs]
  | cons v l ih =>
    cases hv : truthyHeader v with
    | some s => simp [List.findSome?, hv]
    | none => simpa [List.findSome?, hv] using ih

/-- C7 amended: with a configured non-empty secret, the receiver
checks exactly one header value — the first present non-empty one in
the priority order `x-sendblue-secret`, `x-webhook-secret`,
`x-api-key`, `Authorization` — and accepts iff that value, after
stripping an optional `Bearer ` prefix, equals the secret; when no
header passes, the request is rejected with 401.  In particular a
request whose only credential is `Authorization: Bearer s3cret` with
configured secret `"s3cret"` is accepted, and a request with no
secret-bearing header at all gets 401. -/
theorem secret_first_header (h : WebhookHeaders) (secret : String)
    (hsec : secret ≠ "") :
    verifySecret h secret =
      (match firstNonEmptyHeader h with
        | some v => stripBearerPrefix v == secret
        | none => false) ∧
    webhookAuthStatus (some secret) h =
      (if verifySecret h secret then none else some 401) ∧
    verifySecret ⟨none, none, none, some "Bearer s3cret"⟩ "s3cret"
        = true ∧
    webhookAuthStatus (some "s3cret") ⟨none, none, none, none⟩
        = some 401 := by
  have hse : secret.isEmpty = false := by
    rcases hb : secret.isEmpty with _ | _
    · rfl
    · exact absurd ((String.isEmpty_iff secret).mp hb) hsec
  have hg : (stripBearerPrefix "" == secret) = false := by
    rw [show stripBearerPrefix "" = "" from rfl]
    rcases hb : ("" == secret) with _ | _
    · rfl
    · exact absurd (eq_of_beq hb) (Ne.symm hsec)
  obtain ⟨a, b, c, d⟩ := h
  refine ⟨?_, by simp [webhookAuthStatus, hse], by decide, by decide⟩
  calc verifySecret ⟨a, b, c, d⟩ secret
      = (match List.foldr jsOrHeader d [a, b, c] with
          | some p => stripBearerPrefix p == secret
          | none => false) := rfl
    _ = (match ([a, b, c] : List (Option String)).findSome? truthyHeader
            with
          | some v => stripBearerPrefix v == secret
          | none =>
            match d with
            | some p => stripBearerPrefix p == secret
            | none => false) :=
        chain_first_truthy (fun p => stripBearerPrefix p == secret)
          [a, b, c] d
    _ = (match (([a, b, c] : List (Option String)) ++ [d]).findSome?
            truthyHeader with
          | some v => stripBearerPrefix v == secret
          | none => false) :=
        findSome_snoc_truthy (fun p => stripBearerPrefix p == secret) hg
          [a, b, c] d
    _ = (match firstNonEmptyHeader ⟨a, b, c, d⟩ with
          | some v => stripBearerPrefix v == secret
          | none => false) := rfl

/-- Witness for `secret_first_header`: an empty dedicated header and
a non-empty wrong `x-webhook-secret` shadowing a correct `x-api-key`;
the first non-empty header decides and the request draws 401. -/
theorem secret_first_header_witness :
    ("s3cret" : String) ≠ "" ∧
    (verifySecret ⟨some "", some "wrong", some "s3cret", none⟩ "s3cret" =
        (match firstNonEmptyHeader
            ⟨some "", some "wrong", some "s3cret", none⟩ with
          | some v => stripBearerPrefix v == "s3cret"
          | none => false) ∧
      webhookAuthStatus (some "s3cret")
          ⟨some "", some "wrong", some "s3cret", none⟩ =
        (if verifySecret ⟨some "", some "wrong", some "s3cret", none⟩
            "s3cret" then none
         else some 401) ∧
      verifySecret ⟨none, none, none, some "Bearer s3cret"⟩ "s3cret"
          = true ∧
      webhookAuthStatus (some "s3cret") ⟨none, none, none, none⟩
          = some 401) :=
  ⟨by decide,
    secret_first_header ⟨some "", some "wrong", some "s3cret", none⟩
      "s3cret" (by decide)⟩

/-! ### Theorems for the early acknowledgement -/

/-- C8: for a payload that parses and carries a non-empty
`message_handle` and `from_number`, the handler's first action is the
200 acknowledgement; the outbound-echo discard, the dispatch and any
error logging all come after it, and no later action is a response —
a downstream failure only appends an error log. -/
theorem early_ack (p : SendblueMessage) (f : Bool)
    (hp : isValidSendbluePayload p = true) :
    handleParsedBody (some p) f =
      .respond 200 "received" ::
        (if p.is_outbound then []
         else if f then
           [.dispatch p, .logError "Error processing message"]
         else [.dispatch p]) ∧
    (handleParsedBody (some p) f).tail.all
      (fun e => !isRespondEvent e) = true := by
  have h1 : handleParsedBody (some p) f =
      WebhookEvent.respond 200 "received" ::
        (if p.is_outbound then []
         else if f then
           [WebhookEvent.dispatch p,
            WebhookEvent.logError "Error processing message"]
         else [WebhookEvent.dispatch p]) := by
    simp [handleParsedBody, hp]
  refine ⟨h1, ?_⟩
  rw [h1]
  cases p.is_outbound <;> cases f <;> simp [isRespondEvent]

/-- Witness for `early_ack` at a concrete valid payload whose
downstream processing fails. -/
theorem early_ack_witness :
    isValidSendbluePayload
        ⟨some "m1", some "+15551234567", some "hi", none, false⟩ = true ∧
    (handleParsedBody
        (some ⟨some "m1", some "+15551234567", some "hi", none, false⟩)
        true =
      .respond 200 "received" ::
        (if (⟨some "m1", some "+15551234567", some "hi", none, false⟩ :
            SendblueMessage).is_outbound then []
         else if true then
           [.dispatch ⟨some "m1", some "+15551234567", some "hi", none,
              false⟩,
            .logError "Error processing message"]
         else [.dispatch ⟨some "m1", some "+15551234567", some "hi", none,
            false⟩]) ∧
      (handleParsedBody
          (some ⟨some "m1", some "+15551234567", some "hi", none, false⟩)
          true).tail.all (fun e => !isRespondEvent e) = true) :=
  ⟨by decide,
    early_ack ⟨some "m1", some "+15551234567", some "hi", none, false⟩
      true (by decide)⟩

/-! ### Theorems for the Poller cursor -/

/-- C9 counterexample: a cycle whose provider query fails does not
advance the cursor — starting from cursor 0, a failing poll observed
at time 100 leaves the cursor at 0, while the claim requires it to
have been advanced to the current time before the query. -/
theorem poll_cursor_counterexample :
    (poll (fun _ => .error ()) 100 ⟨0, false⟩).1.lastPollTime = 0 ∧
    ((0 : Int) ≠ 100) :=
  ⟨rfl, by decide⟩

/-- C9 amended: each cycle's provider query receives the cursor left
by the previous cycle as its lower bound; the cursor is advanced to
the current time only after the query returns successfully, and a
failed query leaves it unchanged, so the next cycle re-queries from
the same cursor. -/
theorem poll_cursor_discipline
    (query : Int → Except Unit (List SendblueMessage)) (tNow : Int)
    (s : PollState) (h : s.isPolling = false) :
    (poll query tNow s).2 = some (s.lastPollTime, query s.lastPollTime) ∧
    (poll query tNow s).1.lastPollTime =
      (match query s.lastPollTime with
        | .ok _ => tNow
        | .error _ => s.lastPollTime) ∧
    (poll query tNow s).1.isPolling = false := by
  cases hq : query s.lastPollTime <;> simp [poll, h, hq]

/-- Witness for `poll_cursor_discipline` at a successful query. -/
theorem poll_cursor_discipline_witness :
    (⟨0, false⟩ : PollState).isPolling = false ∧
    ((poll (fun _ => Except.ok []) 5 ⟨0, false⟩).2 =
        some (0, (Except.ok [] : Except Unit (List SendblueMessage))) ∧
      (poll (fun _ => Except.ok []) 5 ⟨0, false⟩).1.lastPollTime =
        (match (Except.ok [] : Except Unit (List SendblueMessage)) with
          | .ok _ => (5 : Int)
          | .error _ => 0) ∧
      (poll (fun _ => Except.ok []) 5 ⟨0, false⟩).1.isPolling = false) :=
  ⟨rfl, poll_cursor_discipline (fun _ => Except.ok []) 5 ⟨0, false⟩ rfl⟩

/-! ### Theorems for the IngestionPipeline claim ordering -/

/-- C10: `processMessage` claims the handle before the access-policy
and content checks, so after one call with a given non-empty handle —
even one whose message was then dropped as blocked or empty — every
later call with the same handle, under any policy, dispatcher or
content situation, returns at the dedup check with no actions at all
(no dispatch, no mark-as-read, no conversation recording) and leaves
the store unchanged. -/
theorem processMessage_dup (cfg : SendblueChannelConfig) (da : Bool)
    (msg : SendblueMessage) (now : Int) (store : ProcessedStore)
    (hh : jsTruthy msg.message_handle = true)
    (hf : jsTruthy msg.from_number = true)
    (hmem : msg.message_handle.getD "" ∈ processedIds store) :
    processMessage cfg da msg now store = (store, []) := by
  have hval : (!jsTruthy msg.message_handle ||
      !jsTruthy msg.from_number) = false := by
    simp [hh, hf]
  have htm := tryMark_mem (msg.message_handle.getD "") now store hmem
  simp [processMessage, hval, htm]

theorem claim_precedes_checks (cfg cfg' : SendblueChannelConfig)
    (da da' : Bool) (msg msg' : SendblueMessage) (now now' : Int)
    (store : ProcessedStore)
    (hh : jsTruthy msg.message_handle = true)
    (hf : jsTruthy msg.from_number = true)
    (hh' : msg'.message_handle = msg.message_handle)
    (hf' : jsTruthy msg'.from_number = true) :
    (msg.message_handle.getD "") ∈
      processedIds (processMessage cfg da msg now store).1 ∧
    processMessage cfg' da' msg' now'
        (processMessage cfg da msg now store).1 =
      ((processMessage cfg da msg now store).1, []) := by
  have hval : (!jsTruthy msg.message_handle ||
      !jsTruthy msg.from_number) = false := by
    simp [hh, hf]
  have hst : (processMessage cfg da msg now store).1 =
      (tryMarkMessageProcessed (msg.message_handle.getD "") now store).2 := by
    simp only [processMessage, hval, Bool.false_eq_true, if_false]
    by_cases h1 :
        (tryMarkMessageProcessed (msg.message_handle.getD "") now store).1
          = false <;>
      simp [h1]
  have hmem : (msg.message_handle.getD "") ∈ processedIds
      (tryMarkMessageProcessed (msg.message_handle.getD "") now store).2 := by
    by_cases h1 : (msg.message_handle.getD "") ∈ processedIds store
    · rw [tryMark_mem _ _ _ h1]; exact h1
    · have hstep : tryMarkMessageProcessed (msg.message_handle.getD "")
          now store = (true, ⟨msg.message_handle.getD "", now⟩ :: store) := by
        simp [tryMarkMessageProcessed, h1]
      rw [hstep]; simp [processedIds]
  have hmemS : (msg'.message_handle.getD "") ∈
      processedIds (processMessage cfg da msg now store).1 := by
    rw [hh', hst]; exact hmem
  refine ⟨by rw [hst]; exact hmem, ?_⟩
  exact processMessage_dup cfg' da' msg' now' _
    (by rw [hh']; exact hh) hf' hmemS

/-- Witness for `claim_precedes_checks`: the first call is from a
blocked sender (dropped by policy after the claim), the second reuses
the handle from an allowed sender and is still suppressed. -/
theorem claim_precedes_checks_witness :
    jsTruthy (some "m1") = true ∧
    ((("m1" : String)) ∈ processedIds
        (processMessage ⟨some ["+15559876543"], some "allowlist"⟩ true
          ⟨some "m1", some "+15550000000", some "hello", none, false⟩ 1
          []).1 ∧
      processMessage ⟨some ["+15559876543"], some "allowlist"⟩ true
          ⟨some "m1", some "+15559876543", some "hello", none, false⟩ 2
          (processMessage ⟨some ["+15559876543"], some "allowlist"⟩ true
            ⟨some "m1", some "+15550000000", some "hello", none, false⟩ 1
            []).1 =
        ((processMessage ⟨some ["+15559876543"], some "allowlist"⟩ true
          ⟨some "m1", some "+15550000000", some "hello", none, false⟩ 1
          []).1, [])) :=
  ⟨by decide,
    claim_precedes_checks ⟨some ["+15559876543"], some "allowlist"⟩
      ⟨some ["+15559876543"], some "allowlist"⟩ true true
      ⟨some "m1", some "+15550000000", some "hello", none, false⟩
      ⟨some "m1", some "+15559876543", some "hello", none, false⟩ 1 2 []
      (by decide) (by decide) rfl (by decide)⟩

/-! ### Theorems for the terminal-status freeze -/

theorem mem_listPending (limit : Nat) (t : OutboundStatusTable)
    (r : OutboundMessageStatus)
    (h : r ∈ listPendingOutboundStatuses limit t) :
    r ∈ t ∧ r.is_terminal = false := by
  have h1 : r ∈ (t.filter (fun x => !x.is_terminal)).insertionSort
      (fun a b => a.last_checked ≤ b.last_checked) :=
    List.take_subset _ _ h
  have h2 : r ∈ t.filter (fun x => !x.is_terminal) :=
    (List.mem_insertionSort _).mp h1
  have h3 := List.mem_filter.mp h2
  refine ⟨h3.1, ?_⟩
  have := h3.2
  simpa using this

theorem upsert_find_ne (p : UpsertParams) (now : Int) (h : String)
    (t : OutboundStatusTable) (hne : h ≠ p.messageHandle) :
    findRecord h (upsertOutboundMessageStatus p now t) = findRecord h t := by
  have hpb : (p.messageHandle == h) = false := by
    rcases hb : (p.messageHandle == h) with _ | _
    · rfl
    · exact absurd (eq_of_beq hb) (Ne.symm hne)
  induction t with
  | nil =>
    simp only [upsertOutboundMessageStatus, findRecord, List.find?, hpb]
  | cons a rest ih =>
    by_cases ha : a.message_handle = p.messageHandle
    · have hab : (a.message_handle == h) = false := by rw [ha]; exact hpb
      simp only [upsertOutboundMessageStatus, if_pos ha, findRecord,
        List.find?, hab]
    · simp only [upsertOutboundMessageStatus, if_neg ha, findRecord,
        List.find?]
      cases hab : (a.message_handle == h) with
      | true => rfl
      | false => exact ih

theorem find_nodup (t : OutboundStatusTable) (r : OutboundMessageStatus)
    (hnd : (t.map (·.message_handle)).Nodup) (hr : r ∈ t) :
    findRecord r.message_handle t = some r := by
  induction t with
  | nil => cases hr
  | cons a rest ih =>
    rcases List.mem_cons.mp hr with h | h
    · subst h
      simp [findRecord, List.find?]
    · have hnd' := List.nodup_cons.mp hnd
      have hne : a.message_handle ≠ r.message_handle := by
        intro he
        apply hnd'.1
        show a.message_handle ∈ List.map (fun x => x.message_handle) rest
        rw [he]
        exact List.mem_map_of_mem (·.message_handle) h
      have hab : (a.message_handle == r.message_handle) = false := by
        rcases hb : (a.message_handle == r.message_handle) with _ | _
        · rfl
        · exact absurd (eq_of_beq hb) hne
      simp only [findRecord, List.find?, hab]
      exact ih hnd'.2 h

theorem foldl_reconcile_preserves (f : String → Option String) (now : Int)
    (r : OutboundMessageStatus) (batch : List OutboundMessageStatus)
    (hb : ∀ b ∈ batch, b.message_handle ≠ r.message_handle)
    (t0 : OutboundStatusTable) :
    findRecord r.message_handle (batch.foldl (reconcileStep f now) t0) =
      findRecord r.message_handle t0 := by
  induction batch generalizing t0 with
  | nil => rfl
  | cons b rest ih =>
    have hbne : r.message_handle ≠ b.message_handle :=
      Ne.symm (hb b (by simp))
    simp only [List.foldl_cons]
    rw [ih (fun x hx => hb x (by simp [hx]))]
    cases hf : f b.message_handle with
    | none =>
      simp only [reconcileStep, hf]
      exact upsert_find_ne _ now r.message_handle t0 hbne
    | some s =>
      simp only [reconcileStep, hf]
      exact upsert_find_ne _ now r.message_handle t0 hbne

/-- C2: a terminal outbound-status record is never selected for
re-check — `listPendingOutboundStatuses` never returns it — and a
reconciliation cycle (the only updater of the table, modelled from
the spec over the src/db.ts primitives) leaves it exactly as it was,
so its terminal flag and status never change. -/
theorem terminal_records_frozen (t : OutboundStatusTable)
    (r : OutboundMessageStatus)
    (hnd : (t.map (·.message_handle)).Nodup)
    (hr : r ∈ t) (hterm : r.is_terminal = true)
    (f : String → Option String) (now : Int) (limit : Nat) :
    r ∉ listPendingOutboundStatuses limit t ∧
    findRecord r.message_handle (reconcileCycle f now limit t) = some r := by
  have hnotpending : r ∉ listPendingOutboundStatuses limit t := by
    intro hmem
    have h2 := (mem_listPending limit t r hmem).2
    rw [hterm] at h2
    cases h2
  refine ⟨hnotpending, ?_⟩
  rw [reconcileCycle, foldl_reconcile_preserves]
  · exact find_nodup t r hnd hr
  · intro b hb hbe
    obtain ⟨hbt, hbterm⟩ := mem_listPending limit t b hb
    have hbr : b = r := List.inj_on_of_nodup_map hnd hbt hr hbe
    rw [hbr, hterm] at hbterm
    cases hbterm

/-- Witness for `terminal_records_frozen`: a table with one delivered
(terminal) and one pending record; the provider reports `delivered`
for everything. -/
theorem terminal_records_frozen_witness :
    (([⟨"h1", "c1", "delivered", 5, true, 1, 2⟩,
        ⟨"h2", "c1", "sent", 3, false, 1, 2⟩] :
      OutboundStatusTable).map (·.message_handle)).Nodup ∧
    (⟨"h1", "c1", "delivered", 5, true, 1, 2⟩ : OutboundMessageStatus) ∈
      ([⟨"h1", "c1", "delivered", 5, true, 1, 2⟩,
        ⟨"h2", "c1", "sent", 3, false, 1, 2⟩] : OutboundStatusTable) ∧
    (⟨"h1", "c1", "delivered", 5, true, 1, 2⟩ :
      OutboundMessageStatus).is_terminal = true ∧
    ((⟨"h1", "c1", "delivered", 5, true, 1, 2⟩ : OutboundMessageStatus) ∉
      listPendingOutboundStatuses 25
        [⟨"h1", "c1", "delivered", 5, true, 1, 2⟩,
         ⟨"h2", "c1", "sent", 3, false, 1, 2⟩] ∧
     findRecord "h1"
        (reconcileCycle (fun _ => some "delivered") 10 25
          [⟨"h1", "c1", "delivered", 5, true, 1, 2⟩,
           ⟨"h2", "c1", "sent", 3, false, 1, 2⟩]) =
       some ⟨"h1", "c1", "delivered", 5, true, 1, 2⟩) :=
  ⟨by decide, by decide, rfl,
    terminal_records_frozen
      [⟨"h1", "c1", "delivered", 5, true, 1, 2⟩,
       ⟨"h2", "c1", "sent", 3, false, 1, 2⟩]
      ⟨"h1", "c1", "delivered", 5, true, 1, 2⟩
      (by decide) (by decide) rfl (fun _ => some "delivered") 10 25⟩

end Sendblue
